import Mathlib

/-!
Shallow embedding of the deiu/minsky agent core.

Sources embedded:
* `src/agent/state.ts` — `MAX_ITERATIONS`, the messages-only state,
  `getQueryFromMessages`.
* `src/agent/index.ts` — `isAboutQuestion`, `ABOUT_RESPONSE`,
  `fixDefinitionListSyntax`, `handleHardcodedResponse`, `routeInput`,
  `returnHardcodedResponse`, `callModel`, `routeModelOutput`,
  `announceToolCalls`, `summarizeToolResults`, and the `workflow` graph
  wiring (`__start__ → routeInput`, `hardcoded → __end__`,
  `agent → routeModelOutput → announce → tools → progress → agent`).
* the Perplexity search tool — `fixDefinitionListSyntax`,
  `callPerplexityApi`, `searchPerplexity.func`.

External collaborators (the reasoning backend, the HTTP fetch) are passed
in as oracle functions; machine-level JS details (promises, the checkpoint
store) are elided.  The process-global JS variable `iterationCount` is a
field of the state threaded through the runner: its value on entry to a
run is whatever the global held at that moment.
-/

/-- `MAX_ITERATIONS` from `src/agent/state.ts`: max iterations for the
ReAct loop to prevent runaway costs. -/
def MAX_ITERATIONS : Nat := 20

/-- One tool-invocation request carried by an assistant message
(`tool_calls` entry): tool name and its argument payload. -/
structure ToolCall where
  name : String
  args : String
deriving DecidableEq, Repr

/-- One conversation turn (`BaseMessage`): human input, assistant output
(with its possibly empty `tool_calls` list), or a tool result.  Content
is modelled as the string the JS code reads from it. -/
inductive Msg where
  | human (content : String)
  | ai (content : String) (toolCalls : List ToolCall)
  | tool (content : String)
deriving DecidableEq, Repr

/-- `message.getType() === "human"` / `instanceof HumanMessage`. -/
def Msg.isHuman : Msg → Bool
  | .human _ => true
  | _ => false

/-- The content string the JS code extracts from a message. -/
def Msg.text : Msg → String
  | .human c => c
  | .ai c _ => c
  | .tool c => c

/-- `ABOUT_RESPONSE` from `src/agent/index.ts`: the static capability
document returned on the canned path. -/
def ABOUT_RESPONSE : String :=
  "I'm **Minsky**, a risk-focused financial research agent for traditional markets and crypto. I prioritize robustness over prediction, analyzing tail risks, volatility, and challenging fragile market narratives.\n\n## What I Can Do\n\n**Company Financials**\n- Income statements, balance sheets, cash flow statements\n- Financial metrics (P/E ratio, margins, growth rates)\n- Segmented revenue breakdowns by product/region\n\n**Market Data**\n- Stock prices (current and historical)\n- Cryptocurrency prices (BTC, ETH, SOL, etc.)\n- Analyst estimates and price targets\n\n**SEC Filings**\n- 10-K annual reports\n- 10-Q quarterly reports\n- 8-K current reports (earnings, acquisitions, etc.)\n\n**Ownership & Trading**\n- Insider trades (executive buys/sells)\n- Institutional ownership (hedge funds, mutual funds)\n\n**News & Research**\n- Company news\n- Google News search\n\n## Example Questions\n\n- \"Compare Apple and Microsoft's profitability\"\n- \"What's Tesla's revenue breakdown by segment?\"\n- \"Show me insider trades for NVDA in the last 3 months\"\n- \"What's Bitcoin's price trend this year?\"\n- \"Summarize Amazon's latest 10-K risk factors\"\n\nJust ask me anything about a company or stock!"

/-- `text.toLowerCase().trim()`, at the character-list level.
`Char.toLower` is the ASCII A–Z mapping, which is what the JS call does on
every character the canned patterns can be matched against;
`Char.isWhitespace` covers the space/tab/newline/return characters `trim`
strips. -/
def jsLowerTrim (text : String) : List Char :=
  (((text.data.map Char.toLower).dropWhile Char.isWhitespace).reverse.dropWhile
      Char.isWhitespace).reverse

/-- `isAboutQuestion` from `src/agent/index.ts`: lowercase + trim, then a
fixed list of anchored regexes; `^(a|b)` is a prefix test, `^hi$` is an
exact-equality test.  `patterns.some` is the disjunction below. -/
def isAboutQuestion (text : String) : Bool :=
  let lower := jsLowerTrim text
  ("what can you do".data.isPrefixOf lower || "what do you do".data.isPrefixOf lower) ||
  ("tell me about yourself".data.isPrefixOf lower || "who are you".data.isPrefixOf lower ||
    "what are you".data.isPrefixOf lower) ||
  ("help".data.isPrefixOf lower || "how can you help".data.isPrefixOf lower) ||
  ("what are your capabilities".data.isPrefixOf lower ||
    "what can i ask".data.isPrefixOf lower) ||
  (lower == "hi".data || lower == "hello".data || lower == "hey".data)

/-- `handleHardcodedResponse` from `src/agent/index.ts`.  It reads
`messages[messages.length - 1]` and calls `.getType()` on it: on an empty
conversation that dereferences `undefined` and throws, modelled by the
outer `none`.  The inner option is the JS `null`-or-update return: `some m`
means "append the single assistant message `m`". -/
def handleHardcodedResponse (messages : List Msg) : Option (Option Msg) :=
  match messages.getLast? with
  | none => none
  | some lastMessage =>
    if lastMessage.isHuman then
      if isAboutQuestion lastMessage.text then
        some (some (.ai ABOUT_RESPONSE []))
      else some none
    else some none

/-- The two targets of the entry conditional edge. -/
inductive Route where
  | hardcoded
  | agent
deriving DecidableEq, Repr

/-- `routeInput` from `src/agent/index.ts`: `hardcoded` when
`handleHardcodedResponse` returned an update, else `agent`.  `none`
models the exception on an empty conversation. -/
def routeInput (messages : List Msg) : Option Route :=
  match handleHardcodedResponse messages with
  | none => none
  | some (some _) => some .hardcoded
  | some none => some .agent

/-- `getQueryFromMessages` from `src/agent/state.ts`: scan the sequence
backward and return the content of the most recent human turn, or `""`. -/
def firstHumanText : List Msg → String
  | [] => ""
  | .human c :: _ => c
  | _ :: rest => firstHumanText rest

/-- `getQueryFromMessages` proper: the backward scan over the original
order is the forward scan over the reversed list. -/
def getQueryFromMessages (messages : List Msg) : String :=
  firstHumanText messages.reverse

/-- Head-of-list test used to read the regex fragment `": "`: is the next
character a space? -/
def headIsSpace : List Char → Bool
  | [] => false
  | c :: _ => c = ' '

/-- Does the list begin with zero or more newlines followed by `": "`?
A `'\n'` of the input is consumed by some match of the global regex
`/\n+: /g` exactly when the characters after it satisfy this test: the
regex match covering it starts at the first newline of its maximal
newline run and greedily takes the whole run. -/
def colonSpaceAfterNewlines : List Char → Bool
  | [] => false
  | c :: rest =>
    if c = '\n' then colonSpaceAfterNewlines rest
    else c = ':' && headIsSpace rest

/-- `text.replace(/\n+: /g, ": ")` at the character level: each newline
that some match of the global regex consumes is dropped; every other
character — including the `": "` the replacement re-emits — is kept. -/
def fixChars : List Char → List Char
  | [] => []
  | c :: rest =>
    if c = '\n' then
      if colonSpaceAfterNewlines rest then fixChars rest
      else c :: fixChars rest
    else c :: fixChars rest

/-- `fixDefinitionListSyntax` from `src/agent/index.ts` and from the
search tool (both files define the same one-line function): convert
`"Label\n: value"` / `"Label\n\n: value"` to `"Label: value"`. -/
def fixDefinitionList (text : String) : String :=
  String.mk (fixChars text.data)

/-- One output of the reasoning backend (`modelWithTools.invoke`): the
assistant message's content and its `tool_calls` list.  The backend is an
oracle indexed by how many reasoning calls this loop invocation already
made. -/
structure ModelOutput where
  content : String
  toolCalls : List ToolCall
deriving DecidableEq, Repr

/-- The graph state plus the process-global `iterationCount` variable
from `src/agent/index.ts` (its value at this point of the run). -/
structure AgentState where
  messages : List Msg
  iterationCount : Nat
deriving DecidableEq, Repr

/-- The assistant message `callModel` appends for one backend response:
definition-list syntax is fixed in the content when it is a non-empty
string (`if (typeof response.content === "string" && response.content)`),
and the `tool_calls` list is carried unchanged. -/
def modelMsg (response : ModelOutput) : Msg :=
  .ai (if response.content = "" then response.content
       else fixDefinitionList response.content)
    response.toolCalls

/-- `callModel` from `src/agent/index.ts`: invoke the backend, fix
definition-list syntax in non-empty text content, increment the global
`iterationCount`, append the response. -/
def callModel (model : Nat → ModelOutput) (k : Nat) (st : AgentState) : AgentState :=
  { messages := st.messages ++ [modelMsg (model k)],
    iterationCount := st.iterationCount + 1 }

/-- The two targets of the conditional edge out of the `agent` node
(`"tools"` and `"__end__"`). -/
inductive ModelRoute where
  | tools
  | finish
deriving DecidableEq, Repr

/-- The check shared by `routeModelOutput` and `announceToolCalls`
(`lastMessage._getType() === "ai"`, then `aiMessage.tool_calls`): the
`tool_calls` of the last message when that message is an assistant
message, else the empty list.  It is non-empty exactly when the last
message is an assistant message with pending tool calls. -/
def lastAiToolCalls (messages : List Msg) : List ToolCall :=
  match messages.getLast? with
  | some (.ai _ tcs) => tcs
  | _ => []

/-- `routeModelOutput` from `src/agent/index.ts`, as a function of the
state it reads: the route taken, the value the global `iterationCount`
holds afterwards, and whether the max-iterations warning was logged.
The ceiling check comes first; otherwise route on whether the last
message is an assistant message with a non-empty `tool_calls` list.
(In the compiled graph this node runs right after `callModel`, so the
message list it sees is never empty.) -/
def routeModelOutput (st : AgentState) : ModelRoute × Nat × Bool :=
  if st.iterationCount ≥ MAX_ITERATIONS then (.finish, 0, true)
  else if (lastAiToolCalls st.messages).isEmpty then (.finish, 0, false)
  else (.tools, st.iterationCount, false)

/-- The fixed announcement content (source: `🔍 Researching...`). -/
def researchingText : String := "🔍 Researching..."

/-- The fixed observation content (source: `✓ Data retrieved. Analyzing...`). -/
def retrievedText : String := "✓ Data retrieved. Analyzing..."

/-- `announceToolCalls` from `src/agent/index.ts`: if the last message is
an assistant message with pending tool calls, emit the one fixed status
message, else emit nothing. -/
def announceToolCalls (messages : List Msg) : List Msg :=
  if (lastAiToolCalls messages).isEmpty then []
  else [.ai researchingText []]

/-- The backward scan of `summarizeToolResults`: collect tool messages
from the end (the argument is the reversed message list) until the first
assistant message; human messages are skipped. -/
def toolMsgsBeforeAi : List Msg → List Msg
  | [] => []
  | .tool c :: rest => .tool c :: toolMsgsBeforeAi rest
  | .ai _ _ :: _ => []
  | .human _ :: rest => toolMsgsBeforeAi rest

/-- `summarizeToolResults` from `src/agent/index.ts`: if any tool
messages follow the last assistant message, emit the one fixed summary
message, else emit nothing. -/
def summarizeToolResults (messages : List Msg) : List Msg :=
  if (toolMsgsBeforeAi messages.reverse).isEmpty then []
  else [.ai retrievedText []]

/-- The tool requests of the most recent assistant message that carries
any (the argument is the reversed message list). -/
def pendingToolRequests : List Msg → List ToolCall
  | [] => []
  | .ai _ (tc :: tcs) :: _ => tc :: tcs
  | _ :: rest => pendingToolRequests rest

/-- Modelled from the spec: the `tools` node (`new ToolNode(LANGCHAIN_TOOLS)`
from `@langchain/langgraph/prebuilt`), whose code is not among the
repository's files.  Per the spec's Dispatch contract it executes every
tool-invocation request emitted by the most recent tool-requesting
assistant turn and appends one tool-result turn per request, in emission
order; `toolExec` is the executed tool's string result. -/
def toolNodeDispatch (toolExec : ToolCall → String) (messages : List Msg) : List Msg :=
  (pendingToolRequests messages.reverse).map (fun tc => .tool (toolExec tc))

/-- The observable outcome of one compiled-graph invocation: the final
message list, the final value of the global `iterationCount`, how many
reasoning-backend calls and tool executions were made, and whether the
max-iterations warning was logged. -/
structure RunResult where
  messages : List Msg
  iterationCount : Nat
  modelCalls : Nat
  toolRuns : Nat
  warned : Bool
deriving DecidableEq, Repr

/-- The `announce → tools → progress` stretch of the graph: append the
announcement (`announceToolCalls`), then one tool-result message per
dispatched request (`toolNodeDispatch`), then the observation
(`summarizeToolResults`). -/
def afterToolCycle (toolExec : ToolCall → String) (messages : List Msg) : List Msg :=
  let withAnnounce := messages ++ announceToolCalls messages
  let withResults := withAnnounce ++ toolNodeDispatch toolExec withAnnounce
  withResults ++ summarizeToolResults withResults

/-- The `agent → (announce → tools → progress → agent)*` cycle of the
compiled graph, entered at the `agent` node: run `callModel`, then follow
`routeModelOutput` — its ceiling test and its last-message test
(`lastAiToolCalls`) are spelled out here so that the recursion visibly
terminates; `routeModelOutput` itself computes the same branch (see
`routeModelOutput_forced` / `routeModelOutput_tools` /
`routeModelOutput_natural`).  `k` counts the reasoning calls already
made, indexing the backend oracle. -/
def agentLoop (model : Nat → ModelOutput) (toolExec : ToolCall → String)
    (k : Nat) (st : AgentState) (calls toolRuns : Nat) : RunResult :=
  if h : (callModel model k st).iterationCount ≥ MAX_ITERATIONS then
    ⟨(callModel model k st).messages, 0, calls + 1, toolRuns, true⟩
  else if (lastAiToolCalls (callModel model k st).messages).isEmpty then
    ⟨(callModel model k st).messages, 0, calls + 1, toolRuns, false⟩
  else
    agentLoop model toolExec (k + 1)
      ⟨afterToolCycle toolExec (callModel model k st).messages,
        (callModel model k st).iterationCount⟩
      (calls + 1)
      (toolRuns + (toolNodeDispatch toolExec ((callModel model k st).messages ++
        announceToolCalls (callModel model k st).messages)).length)
termination_by MAX_ITERATIONS - st.iterationCount
decreasing_by
  simp only [callModel] at h ⊢
  omega

/-- One invocation of the compiled graph (`graph.invoke`): route the
conversation at `__start__`; the `hardcoded` node appends the canned
response and ends, the `agent` node enters the bounded loop.  `none`
models the exception `handleHardcodedResponse` throws on an empty
conversation. -/
def runGraph (model : Nat → ModelOutput) (toolExec : ToolCall → String)
    (st : AgentState) : Option RunResult :=
  match routeInput st.messages with
  | none => none
  | some .hardcoded =>
    let appended := match handleHardcodedResponse st.messages with
      | some (some m) => [m]
      | _ => []
    some ⟨st.messages ++ appended, st.iterationCount, 0, 0, false⟩
  | some .agent => some (agentLoop model toolExec 0 st 0 0)

/-- The ceiling branch of `routeModelOutput`: at or above `MAX_ITERATIONS`
it warns, zeroes the counter and ends, whatever the messages hold. -/
lemma routeModelOutput_forced (st : AgentState)
    (h : st.iterationCount ≥ MAX_ITERATIONS) :
    routeModelOutput st = (.finish, 0, true) := by
  simp [routeModelOutput, h]

/-- Below the ceiling, a last assistant message with pending tool calls
routes to `tools` and leaves the counter alone. -/
lemma routeModelOutput_tools (st : AgentState) (c : String) (tc : ToolCall)
    (tcs : List ToolCall) (h : ¬ st.iterationCount ≥ MAX_ITERATIONS)
    (hm : st.messages.getLast? = some (.ai c (tc :: tcs))) :
    routeModelOutput st = (.tools, st.iterationCount, false) := by
  simp [routeModelOutput, lastAiToolCalls, h, hm]

/-- Below the ceiling, a last assistant message with no pending tool
calls ends naturally and zeroes the counter. -/
lemma routeModelOutput_natural (st : AgentState) (c : String)
    (h : ¬ st.iterationCount ≥ MAX_ITERATIONS)
    (hm : st.messages.getLast? = some (.ai c [])) :
    routeModelOutput st = (.finish, 0, false) := by
  simp [routeModelOutput, lastAiToolCalls, h, hm]

/-- `callModel` appends its response as the new last message. -/
lemma callModel_getLast (model : Nat → ModelOutput) (k : Nat) (st : AgentState) :
    (callModel model k st).messages.getLast? = some (modelMsg (model k)) := by
  simp [callModel]

/-- After `callModel`, the pending tool calls of the last message are the
backend response's `tool_calls`. -/
lemma callModel_lastAiToolCalls (model : Nat → ModelOutput) (k : Nat) (st : AgentState) :
    lastAiToolCalls (callModel model k st).messages = (model k).toolCalls := by
  simp [lastAiToolCalls, callModel_getLast, modelMsg]

/-- Proof-only structural twin of `agentLoop`: the same body recursing on
an explicit fuel argument, so that concrete runs reduce inside the
kernel.  `agentLoop_eq_fuel` shows the two agree whenever the fuel
exceeds the loop's remaining budget; the fuel-exhausted value is never
reached then. -/
def agentLoopFuel (model : Nat → ModelOutput) (toolExec : ToolCall → String) :
    Nat → Nat → AgentState → Nat → Nat → RunResult
  | 0, _, st, calls, toolRuns => ⟨st.messages, 0, calls, toolRuns, true⟩
  | fuel + 1, k, st, calls, toolRuns =>
    if (callModel model k st).iterationCount ≥ MAX_ITERATIONS then
      ⟨(callModel model k st).messages, 0, calls + 1, toolRuns, true⟩
    else if (lastAiToolCalls (callModel model k st).messages).isEmpty then
      ⟨(callModel model k st).messages, 0, calls + 1, toolRuns, false⟩
    else
      agentLoopFuel model toolExec fuel (k + 1)
        ⟨afterToolCycle toolExec (callModel model k st).messages,
          (callModel model k st).iterationCount⟩
        (calls + 1)
        (toolRuns + (toolNodeDispatch toolExec ((callModel model k st).messages ++
          announceToolCalls (callModel model k st).messages)).length)

/-- `agentLoop` equals its structural twin once the fuel exceeds the
remaining iteration budget. -/
lemma agentLoop_eq_fuel (model : Nat → ModelOutput) (toolExec : ToolCall → String) :
    ∀ (fuel k : Nat) (st : AgentState) (calls toolRuns : Nat),
      MAX_ITERATIONS - st.iterationCount < fuel →
      agentLoop model toolExec k st calls toolRuns =
        agentLoopFuel model toolExec fuel k st calls toolRuns := by
  intro fuel
  induction fuel with
  | zero => intro k st calls toolRuns h; omega
  | succ fuel ih =>
    intro k st calls toolRuns h
    rw [agentLoop]
    simp only [agentLoopFuel]
    by_cases hc : (callModel model k st).iterationCount ≥ MAX_ITERATIONS
    · rw [dif_pos hc, if_pos hc]
    · rw [dif_neg hc, if_neg hc]
      by_cases he : (lastAiToolCalls (callModel model k st).messages).isEmpty = true
      · rw [if_pos he, if_pos he]
      · rw [if_neg he, if_neg he]
        apply ih
        simp only [callModel, MAX_ITERATIONS] at hc h ⊢
        omega

/-- Every exit of the fuel loop zeroes the global counter. -/
lemma agentLoopFuel_count_zero (model : Nat → ModelOutput) (toolExec : ToolCall → String) :
    ∀ (fuel k : Nat) (st : AgentState) (calls toolRuns : Nat),
      (agentLoopFuel model toolExec fuel k st calls toolRuns).iterationCount = 0 := by
  intro fuel
  induction fuel with
  | zero => intro k st calls toolRuns; rfl
  | succ fuel ih =>
    intro k st calls toolRuns
    simp only [agentLoopFuel]
    by_cases hc : (callModel model k st).iterationCount ≥ MAX_ITERATIONS
    · rw [if_pos hc]
    · rw [if_neg hc]
      by_cases he : (lastAiToolCalls (callModel model k st).messages).isEmpty = true
      · rw [if_pos he]
      · rw [if_neg he]
        exact ih _ _ _ _

/-- Every exit of `agentLoop` zeroes the global counter: both the natural
and the forced `Reasoning → End` transitions reset it. -/
lemma agentLoop_count_zero (model : Nat → ModelOutput) (toolExec : ToolCall → String)
    (k : Nat) (st : AgentState) (calls toolRuns : Nat) :
    (agentLoop model toolExec k st calls toolRuns).iterationCount = 0 := by
  rw [agentLoop_eq_fuel model toolExec (MAX_ITERATIONS - st.iterationCount + 1) k st
    calls toolRuns (by omega)]
  exact agentLoopFuel_count_zero model toolExec _ _ _ _ _

/-- The fuel loop under a backend that requests tools on every call:
with `n` iterations of budget left (and fuel to spare) it makes exactly
`n` more reasoning calls, ends forcibly with the warning logged and the
counter zeroed, and the conversation still ends in the last backend
response — the tool-requesting assistant message of call `k + n - 1`. -/
lemma agentLoopFuel_always_tools (model : Nat → ModelOutput) (toolExec : ToolCall → String)
    (hm : ∀ j, (model j).toolCalls ≠ []) :
    ∀ (n fuel k : Nat) (st : AgentState) (calls toolRuns : Nat),
      st.iterationCount + n = MAX_ITERATIONS → 1 ≤ n → n ≤ fuel →
      (agentLoopFuel model toolExec fuel k st calls toolRuns).modelCalls = calls + n ∧
      (agentLoopFuel model toolExec fuel k st calls toolRuns).iterationCount = 0 ∧
      (agentLoopFuel model toolExec fuel k st calls toolRuns).warned = true ∧
      (agentLoopFuel model toolExec fuel k st calls toolRuns).messages.getLast? =
        some (modelMsg (model (k + n - 1))) := by
  intro n
  induction n with
  | zero => intro fuel k st calls toolRuns h1 h2 h3; omega
  | succ m ih =>
    intro fuel k st calls toolRuns h1 h2 h3
    cases fuel with
    | zero => omega
    | succ fuel =>
      rcases Nat.eq_zero_or_pos m with hm0 | hm0
      · subst hm0
        have hc : (callModel model k st).iterationCount ≥ MAX_ITERATIONS := by
          simp only [callModel]; omega
        simp only [agentLoopFuel, if_pos hc]
        refine ⟨by trivial, by trivial, by trivial, ?_⟩
        rw [callModel_getLast]
        norm_num
      · have hc : ¬ (callModel model k st).iterationCount ≥ MAX_ITERATIONS := by
          simp only [callModel]; omega
        have he : ¬ (lastAiToolCalls (callModel model k st).messages).isEmpty = true := by
          rw [callModel_lastAiToolCalls]
          obtain ⟨tc, tcs, htc⟩ := List.exists_cons_of_ne_nil (hm k)
          rw [htc]
          simp
        have harith :
            (⟨afterToolCycle toolExec (callModel model k st).messages,
              (callModel model k st).iterationCount⟩ : AgentState).iterationCount + m =
              MAX_ITERATIONS := by
          simp only [callModel]; omega
        obtain ⟨ih1, ih2, ih3, ih4⟩ := ih fuel (k + 1)
          ⟨afterToolCycle toolExec (callModel model k st).messages,
            (callModel model k st).iterationCount⟩
          (calls + 1)
          (toolRuns + (toolNodeDispatch toolExec ((callModel model k st).messages ++
            announceToolCalls (callModel model k st).messages)).length)
          harith hm0 (by omega)
        simp only [agentLoopFuel, if_neg hc, if_neg he]
        refine ⟨?_, ih2, ih3, ?_⟩
        · rw [ih1]; omega
        · rw [ih4]
          have hidx : k + 1 + m - 1 = k + (m + 1) - 1 := by omega
          rw [hidx]

/-- `agentLoop` under an always-tool-requesting backend, entered with `n`
iterations of budget left: exactly `n` reasoning calls, forced end. -/
lemma agentLoop_always_tools (model : Nat → ModelOutput) (toolExec : ToolCall → String)
    (hm : ∀ j, (model j).toolCalls ≠ []) (n k : Nat) (st : AgentState)
    (calls toolRuns : Nat) (h1 : st.iterationCount + n = MAX_ITERATIONS) (h2 : 1 ≤ n) :
    (agentLoop model toolExec k st calls toolRuns).modelCalls = calls + n ∧
    (agentLoop model toolExec k st calls toolRuns).iterationCount = 0 ∧
    (agentLoop model toolExec k st calls toolRuns).warned = true ∧
    (agentLoop model toolExec k st calls toolRuns).messages.getLast? =
      some (modelMsg (model (k + n - 1))) := by
  rw [agentLoop_eq_fuel model toolExec (n + 1) k st calls toolRuns (by omega)]
  exact agentLoopFuel_always_tools model toolExec hm n (n + 1) k st calls toolRuns h1 h2
    (by omega)

/-- The parsed JSON body of a Perplexity response
(`PerplexityResponse`): the `choices[i].message.content` strings and the
optional `citations` array.  A missing `choices[0]`, `message` or
`content`, and the empty string, are all falsy in
`data.choices[0]?.message?.content || "No response received"`; the model
folds them into an empty/`""`-headed `choices` list. -/
structure PerplexityData where
  choices : List String
  citations : Option (List String)
deriving DecidableEq, Repr

/-- What the one outbound `fetch` of `callPerplexityApi` did, as an
oracle: either the promise rejected (network failure — also standing for
a rejected `response.text()`), or a response arrived with its `ok` flag,
`status` code, error body text, and the result of `response.json()`
(`Except.error` is a rejected JSON parse). -/
inductive FetchOutcome where
  | fetchRejects (message : String)
  | response (ok : Bool) (status : Nat) (bodyText : String)
      (json : Except String PerplexityData)
deriving Repr

/-- `callPerplexityApi` from the search tool: throw when
`PERPLEXITY_API_KEY` is unset; throw `Perplexity API error (status): body`
on a non-ok response; otherwise read `choices[0]`, fall back to
`"No response received"` when falsy, fix definition-list syntax in the
answer and default `citations` to `[]`.  A JS throw is `Except.error`
carrying the error's message. -/
def callPerplexityApi (apiKey : Option String) (outcome : FetchOutcome)
    (_query _focus : String) : Except String (String × List String) :=
  match apiKey with
  | none => .error ("PERPLEXITY_API_KEY environment variable is not set. " ++
      "Please add it to your .env file.")
  | some _ =>
    match outcome with
    | .fetchRejects message => .error message
    | .response ok status bodyText json =>
      if ok then
        match json with
        | .error message => .error message
        | .ok data =>
          let answer := match data.choices.head? with
            | some c => if c = "" then "No response received" else c
            | none => "No response received"
          .ok (fixDefinitionList answer, data.citations.getD [])
      else .error ("Perplexity API error (" ++ toString status ++ "): " ++ bodyText)

/-- `JSON.stringify` escaping for the characters that matter here (quote,
backslash, and the common control characters). -/
def jsonEscape (s : String) : String :=
  String.mk (s.data.foldr (fun c acc =>
    (if c = '"' then ['\\', '"']
     else if c = '\\' then ['\\', '\\']
     else if c = '\n' then ['\\', 'n']
     else if c = '\t' then ['\\', 't']
     else if c = '\r' then ['\\', 'r']
     else [c]) ++ acc) [])

/-- A JSON string literal. -/
def jsonStr (s : String) : String := "\"" ++ jsonEscape s ++ "\""

/-- A JSON array of string literals. -/
def jsonArr (xs : List String) : String :=
  "[" ++ String.intercalate "," (xs.map jsonStr) ++ "]"

/-- The success shape of the tool's return value:
`JSON.stringify({query, focus, answer, citations})`. -/
def successToolResult (query focus answer : String) (citations : List String) : String :=
  "\x7b" ++ jsonStr "query" ++ ":" ++ jsonStr query ++ "," ++
    jsonStr "focus" ++ ":" ++ jsonStr focus ++ "," ++
    jsonStr "answer" ++ ":" ++ jsonStr answer ++ "," ++
    jsonStr "citations" ++ ":" ++ jsonArr citations ++ "\x7d"

/-- The error shape of the tool's return value:
`JSON.stringify({error: errorMessage, query})`. -/
def errorToolResult (message query : String) : String :=
  "\x7b" ++ jsonStr "error" ++ ":" ++ jsonStr message ++ "," ++
    jsonStr "query" ++ ":" ++ jsonStr query ++ "\x7d"

/-- `searchPerplexity.func` from the search tool: run
`callPerplexityApi` inside `try/catch`; a success becomes the
success-shaped JSON string, any caught error becomes the error-shaped
JSON string carrying the error's message and the query.  (A non-`Error`
thrown value would yield `"Unknown error occurred"`; every failure the
model can produce is an `Error` with a message.)  The function itself is
total: it always returns a string. -/
def searchPerplexityFunc (apiKey : Option String) (outcome : FetchOutcome)
    (query focus : String) : String :=
  match callPerplexityApi apiKey outcome query focus with
  | .ok (answer, citations) => successToolResult query focus answer citations
  | .error message => errorToolResult message query

/-- Characters other than newline pass through `fixChars` untouched. -/
lemma fixChars_no_newline_append (l1 l2 : List Char) (h : ∀ c ∈ l1, c ≠ '\n') :
    fixChars (l1 ++ l2) = l1 ++ fixChars l2 := by
  induction l1 with
  | nil => rfl
  | cons c l1 ih =>
    have hc : c ≠ '\n' := h c (List.mem_cons_self c l1)
    simp only [List.cons_append, fixChars, if_neg hc, List.cons.injEq, true_and]
    exact ih (fun d hd => h d (List.mem_cons_of_mem c hd))

/-- A newline run followed by `": "` satisfies the match test. -/
lemma colonSpace_replicate (k : Nat) (t : List Char) :
    colonSpaceAfterNewlines (List.replicate k '\n' ++ ':' :: ' ' :: t) = true := by
  induction k with
  | zero => simp [colonSpaceAfterNewlines, headIsSpace]
  | succ k ih => simpa [colonSpaceAfterNewlines] using ih

/-- `fixChars` collapses a non-empty newline run before `": "` to the
inline `": "` and goes on after it. -/
lemma fixChars_run (k : Nat) (t : List Char) :
    fixChars (List.replicate (k + 1) '\n' ++ ':' :: ' ' :: t) =
      ':' :: ' ' :: fixChars t := by
  induction k with
  | zero =>
    simp [fixChars, colonSpace_replicate 0 t, colonSpaceAfterNewlines, headIsSpace]
  | succ k ih =>
    have hcs := colonSpace_replicate (k + 1) t
    calc fixChars (List.replicate (k + 2) '\n' ++ ':' :: ' ' :: t)
        = fixChars (List.replicate (k + 1) '\n' ++ ':' :: ' ' :: t) := by
          rw [show List.replicate (k + 2) '\n' = '\n' :: List.replicate (k + 1) '\n'
            from rfl]
          simp [fixChars, hcs]
      _ = ':' :: ' ' :: fixChars t := ih

/-- When the match test holds, the `fixChars` output starts with `": "`. -/
lemma fixChars_of_colonSpace :
    ∀ l : List Char, colonSpaceAfterNewlines l = true →
      ∃ u, fixChars l = ':' :: ' ' :: u := by
  intro l
  induction l with
  | nil => intro h; cases h
  | cons c rest ih =>
    intro h
    by_cases hc : c = '\n'
    · subst hc
      simp only [colonSpaceAfterNewlines, eq_self_iff_true, if_true] at h
      simp only [fixChars, eq_self_iff_true, if_true]
      rw [if_pos h]
      exact ih h
    · simp only [colonSpaceAfterNewlines, if_neg hc, Bool.and_eq_true, decide_eq_true_eq]
        at h
      obtain ⟨hcol, hsp⟩ := h
      subst hcol
      cases rest with
      | nil => cases hsp
      | cons c2 u =>
        simp only [headIsSpace, decide_eq_true_eq] at hsp
        subst hsp
        refine ⟨fixChars u, ?_⟩
        simp [fixChars]

/-- `fixChars` neither creates nor destroys a leading space. -/
lemma headIsSpace_fixChars : ∀ l : List Char, headIsSpace (fixChars l) = headIsSpace l := by
  intro l
  induction l with
  | nil => rfl
  | cons c rest ih =>
    by_cases hc : c = '\n'
    · subst hc
      by_cases hcs : colonSpaceAfterNewlines rest = true
      · obtain ⟨u, hu⟩ := fixChars_of_colonSpace rest hcs
        simp [fixChars, hcs, hu, headIsSpace]
      · simp [fixChars, hcs, headIsSpace]
    · simp [fixChars, hc, headIsSpace]

/-- `fixChars` preserves the match test: the output begins with
newlines-then-`": "` exactly when the input does. -/
lemma colonSpace_fixChars :
    ∀ l : List Char, colonSpaceAfterNewlines (fixChars l) = colonSpaceAfterNewlines l := by
  intro l
  induction l with
  | nil => rfl
  | cons c rest ih =>
    by_cases hc : c = '\n'
    · subst hc
      by_cases hcs : colonSpaceAfterNewlines rest = true
      · simp [fixChars, hcs, colonSpaceAfterNewlines, ih]
      · simp [fixChars, hcs, colonSpaceAfterNewlines, ih]
    · simp [fixChars, hc, colonSpaceAfterNewlines, headIsSpace_fixChars rest]

/-- The character-level normalization is idempotent. -/
lemma fixChars_idem : ∀ l : List Char, fixChars (fixChars l) = fixChars l := by
  intro l
  induction l with
  | nil => rfl
  | cons c rest ih =>
    by_cases hc : c = '\n'
    · subst hc
      by_cases hcs : colonSpaceAfterNewlines rest = true
      · simp [fixChars, hcs, ih]
      · have h2 : colonSpaceAfterNewlines (fixChars rest) ≠ true := by
          rw [colonSpace_fixChars rest]; exact hcs
        simp [fixChars, hcs, h2, ih]
    · simp [fixChars, hc, ih]

/-- Strings with equal character data are equal. -/
lemma string_data_ext (s t : String) (h : s.data = t.data) : s = t :=
  String.ext h

/-- C10: `fixDefinitionListSyntax` is idempotent: re-normalizing
already-normalized text (tool output normalized in the tool, then the
model's reply normalized again) never changes it. -/
theorem fix_idempotent (s : String) :
    fixDefinitionList (fixDefinitionList s) = fixDefinitionList s := by
  unfold fixDefinitionList
  exact congrArg String.mk (fixChars_idem s.data)

/-- C8: the normalization replaces every run of one or more newlines
immediately preceding a colon-space by the inline colon-space: any
newline-free label followed by `k ≥ 1` newlines and `": "` collapses to
`label ++ ": "` (with the rest normalized in turn), and the three spec
examples `"Revenue\n: $10B"`, `"Revenue\n\n: $10B"`, `"Revenue: $10B"`
map to `"Revenue: $10B"`. -/
theorem fix_collapses_newline_runs :
    (∀ (a b : String) (k : Nat), 1 ≤ k → (∀ c ∈ a.data, c ≠ '\n') →
      fixDefinitionList (a ++ String.mk (List.replicate k '\n') ++ ": " ++ b) =
        a ++ ": " ++ fixDefinitionList b) ∧
    fixDefinitionList "Revenue\n: $10B" = "Revenue: $10B" ∧
    fixDefinitionList "Revenue\n\n: $10B" = "Revenue: $10B" ∧
    fixDefinitionList "Revenue: $10B" = "Revenue: $10B" := by
  refine ⟨?_, by decide, by decide, by decide⟩
  intro a b k hk hnl
  cases k with
  | zero => omega
  | succ m =>
    apply string_data_ext
    show fixChars ((a ++ String.mk (List.replicate (m + 1) '\n') ++ ": " ++ b).data) =
      (a ++ ": " ++ fixDefinitionList b).data
    have hdata : (a ++ String.mk (List.replicate (m + 1) '\n') ++ ": " ++ b).data =
        a.data ++ (List.replicate (m + 1) '\n' ++ ':' :: ' ' :: b.data) := by
      show (a.data ++ List.replicate (m + 1) '\n' ++ [':', ' ']) ++ b.data = _
      simp [List.append_assoc]
    rw [hdata, fixChars_no_newline_append a.data _ hnl, fixChars_run m b.data]
    show a.data ++ ':' :: ' ' :: fixChars b.data =
      (a.data ++ [':', ' ']) ++ fixChars b.data
    simp

/-- Witness for `fix_collapses_newline_runs`: the general clause applied
at `a = "Revenue"`, `k = 2`, `b = "$10B"`. -/
theorem fix_collapses_newline_runs_witness :
    (1 ≤ 2 ∧ ∀ c ∈ "Revenue".data, c ≠ '\n') ∧
    fixDefinitionList ("Revenue" ++ String.mk (List.replicate 2 '\n') ++ ": " ++ "$10B") =
      "Revenue" ++ ": " ++ fixDefinitionList "$10B" :=
  ⟨⟨by decide, by decide⟩,
    fix_collapses_newline_runs.1 "Revenue" "$10B" 2 (by decide) (by decide)⟩

/-- C9: `handleHardcodedResponse` dereferences the last element, so the
entry router is undefined on the empty conversation; on any non-empty
conversation it totally returns the canned route or the agent route. -/
theorem route_input_total_on_nonempty :
    routeInput [] = none ∧
    ∀ messages : List Msg, messages ≠ [] →
      routeInput messages = some .hardcoded ∨ routeInput messages = some .agent := by
  refine ⟨rfl, ?_⟩
  intro messages hne
  have hm : messages.getLast? = some (messages.getLast hne) :=
    List.getLast?_eq_getLast messages hne
  simp only [routeInput, handleHardcodedResponse, hm]
  by_cases hh : (messages.getLast hne).isHuman = true
  · by_cases ha : isAboutQuestion (messages.getLast hne).text = true
    · simp [hh, ha]
    · simp [hh, ha]
  · simp [hh]

/-- Witness for `route_input_total_on_nonempty` at `[human "hi"]`. -/
theorem route_input_total_on_nonempty_witness :
    ([Msg.human "hi"] ≠ ([] : List Msg)) ∧
    (routeInput [Msg.human "hi"] = some .hardcoded ∨
      routeInput [Msg.human "hi"] = some .agent) :=
  ⟨by decide, route_input_total_on_nonempty.2 [Msg.human "hi"] (by decide)⟩

/-- C7 fails on the code: with the matching human turn buried under a
later assistant turn, `getQueryFromMessages` still finds `"hello"` and
`"hello"` matches the canned patterns, yet `routeInput` — which only
examines the literal last element — routes to the agent. -/
theorem canned_check_ignores_buried_human_cex :
    getQueryFromMessages [.human "hello", .ai "Sure." []] = "hello" ∧
    isAboutQuestion "hello" = true ∧
    routeInput [.human "hello", .ai "Sure." []] = some .agent := by
  refine ⟨rfl, by decide, by decide⟩

/-- C7 amended: the `Start → Canned` decision reads the literal last turn
of the conversation, not the latest human turn.  A conversation ending in
a matching human turn takes the canned route, and a conversation whose
last turn is not human takes the agent route even if an earlier human
turn matches. -/
theorem canned_check_last_element_amended :
    (∀ (messages : List Msg) (text : String), isAboutQuestion text = true →
      routeInput (messages ++ [.human text]) = some .hardcoded) ∧
    (∀ (messages : List Msg) (m : Msg), messages.getLast? = some m →
      m.isHuman = false → routeInput messages = some .agent) := by
  constructor
  · intro messages text h
    simp only [routeInput, handleHardcodedResponse, List.getLast?_concat]
    simp [Msg.isHuman, Msg.text, h]
  · intro messages m hm hh
    simp only [routeInput, handleHardcodedResponse, hm]
    simp [hh]

/-- Witness for `canned_check_last_element_amended`: both clauses at
concrete conversations. -/
theorem canned_check_last_element_amended_witness :
    (isAboutQuestion "hi" = true ∧
      routeInput [.ai "x" [], .human "hi"] = some .hardcoded) ∧
    (([Msg.human "hello", Msg.ai "Sure." []].getLast? = some (Msg.ai "Sure." [])) ∧
      (Msg.ai "Sure." []).isHuman = false ∧
      routeInput [.human "hello", .ai "Sure." []] = some .agent) :=
  ⟨⟨by decide,
      by
        have h := canned_check_last_element_amended.1 [.ai "x" []] "hi" (by decide)
        simpa using h⟩,
    ⟨by decide, by decide,
      canned_check_last_element_amended.2 [.human "hello", .ai "Sure." []]
        (.ai "Sure." []) (by decide) (by decide)⟩⟩

/-- C2: a human turn whose lowercased, trimmed text exactly equals
`"hi"`, `"hello"` or `"hey"`, or begins with one of the nine canned
prefixes, makes the loop terminate in one step: exactly one assistant
turn equal to the static capability document is appended, no reasoning
call and no tool execution happens, and the iteration counter stays at
zero — for every reasoning backend and every tool behavior. -/
theorem canned_path_one_step (text : String)
    (h : jsLowerTrim text = "hi".data ∨ jsLowerTrim text = "hello".data ∨
      jsLowerTrim text = "hey".data ∨
      "what can you do".data.isPrefixOf (jsLowerTrim text) = true ∨
      "what do you do".data.isPrefixOf (jsLowerTrim text) = true ∨
      "tell me about yourself".data.isPrefixOf (jsLowerTrim text) = true ∨
      "who are you".data.isPrefixOf (jsLowerTrim text) = true ∨
      "what are you".data.isPrefixOf (jsLowerTrim text) = true ∨
      "help".data.isPrefixOf (jsLowerTrim text) = true ∨
      "how can you help".data.isPrefixOf (jsLowerTrim text) = true ∨
      "what are your capabilities".data.isPrefixOf (jsLowerTrim text) = true ∨
      "what can i ask".data.isPrefixOf (jsLowerTrim text) = true) :
    ∀ (model : Nat → ModelOutput) (toolExec : ToolCall → String),
      runGraph model toolExec ⟨[.human text], 0⟩ =
        some ⟨[.human text, .ai ABOUT_RESPONSE []], 0, 0, 0, false⟩ := by
  have hq : isAboutQuestion text = true := by
    unfold isAboutQuestion
    rcases h with h | h | h | h | h | h | h | h | h | h | h | h <;> simp [h]
  intro model toolExec
  have hr : handleHardcodedResponse [.human text] = some (some (.ai ABOUT_RESPONSE [])) := by
    simp [handleHardcodedResponse, Msg.isHuman, Msg.text, hq]
  simp [runGraph, routeInput, hr]

/-- Witness for `canned_path_one_step` at `"Hello "` (exercising the
lowercasing and the trimming). -/
theorem canned_path_one_step_witness :
    (jsLowerTrim "Hello " = "hello".data) ∧
    runGraph (fun _ => ⟨"", []⟩) (fun _ => "") ⟨[.human "Hello "], 0⟩ =
      some ⟨[.human "Hello ", .ai ABOUT_RESPONSE []], 0, 0, 0, false⟩ :=
  ⟨by decide,
    canned_path_one_step "Hello " (Or.inr (Or.inl (by decide))) (fun _ => ⟨"", []⟩)
      (fun _ => "")⟩

/-- C1: from a fresh counter, with the ceiling `MAX_ITERATIONS = 20` and
a reasoning backend that requests a tool on every call, a non-canned run
makes exactly 20 reasoning calls and then force-terminates regardless of
tool behavior: the warning is logged, the counter is reset to zero, and
no synthetic turn is appended — the conversation still ends in the 20th
(non-terminal, tool-requesting) assistant output. -/
theorem forced_termination_at_ceiling (model : Nat → ModelOutput)
    (toolExec : ToolCall → String) (q : String)
    (hq : isAboutQuestion q = false)
    (hm : ∀ j, (model j).toolCalls ≠ []) :
    ∃ r, runGraph model toolExec ⟨[.human q], 0⟩ = some r ∧
      r.modelCalls = MAX_ITERATIONS ∧ r.iterationCount = 0 ∧ r.warned = true ∧
      r.messages.getLast? = some (modelMsg (model 19)) ∧
      (model 19).toolCalls ≠ [] := by
  have hr : routeInput [.human q] = some .agent := by
    simp [routeInput, handleHardcodedResponse, Msg.isHuman, Msg.text, hq]
  obtain ⟨h1, h2, h3, h4⟩ := agentLoop_always_tools model toolExec hm MAX_ITERATIONS 0
    ⟨[.human q], 0⟩ 0 0 (by norm_num) (by norm_num [MAX_ITERATIONS])
  refine ⟨agentLoop model toolExec 0 ⟨[.human q], 0⟩ 0 0, ?_, ?_, h2, h3, ?_, hm 19⟩
  · simp [runGraph, hr]
  · simpa using h1
  · have : 0 + MAX_ITERATIONS - 1 = 19 := by norm_num [MAX_ITERATIONS]
    rwa [this] at h4

/-- Witness for `forced_termination_at_ceiling` with a concrete
always-searching backend. -/
theorem forced_termination_at_ceiling_witness :
    (isAboutQuestion "Assess NVDA tail risk" = false ∧
      ∀ j : Nat,
        ((fun _ => (⟨"", [⟨"search_perplexity", "NVDA"⟩]⟩ : ModelOutput)) j).toolCalls ≠ []) ∧
    ∃ r, runGraph (fun _ => (⟨"", [⟨"search_perplexity", "NVDA"⟩]⟩ : ModelOutput))
        (fun _ => "result") ⟨[.human "Assess NVDA tail risk"], 0⟩ = some r ∧
      r.modelCalls = MAX_ITERATIONS ∧ r.iterationCount = 0 ∧ r.warned = true ∧
      r.messages.getLast? =
        some (modelMsg ((fun _ => (⟨"", [⟨"search_perplexity", "NVDA"⟩]⟩ : ModelOutput)) 19)) ∧
      ((fun _ => (⟨"", [⟨"search_perplexity", "NVDA"⟩]⟩ : ModelOutput)) 19).toolCalls ≠ [] :=
  ⟨⟨by decide,
      fun _ =>
        (by decide : ([(⟨"search_perplexity", "NVDA"⟩ : ToolCall)] : List ToolCall) ≠ [])⟩,
    forced_termination_at_ceiling (fun _ => ⟨"", [⟨"search_perplexity", "NVDA"⟩]⟩)
      (fun _ => "result") "Assess NVDA tail risk" (by decide)
      (fun _ =>
        (by decide : ([(⟨"search_perplexity", "NVDA"⟩ : ToolCall)] : List ToolCall) ≠ []))⟩

/-- C3 counterexample: the `Canned → End` transition does not reset the
iteration counter.  Entering the canned path while the global counter
holds 5 (as a concurrently running session can arrange, the counter
being process-wide) terminates with the counter still 5, not 0. -/
theorem canned_end_counter_unchanged_cex :
    ∃ r, runGraph (fun _ => ⟨"", []⟩) (fun _ => "") ⟨[.human "hello"], 5⟩ = some r ∧
      r.iterationCount = 5 ∧ r.iterationCount ≠ 0 :=
  ⟨⟨[.human "hello", .ai ABOUT_RESPONSE []], 5, 0, 0, false⟩, rfl, rfl, by decide⟩

/-- C3 amended: each reasoning call increments the counter by exactly
one, and both reasoning-path terminal transitions (natural and forced
`Reasoning → End`) reset it to zero; the `Canned → End` transition leaves
the counter untouched instead of resetting it, so the counter is zero at
`End` for every run entered with the counter at zero. -/
theorem counter_zero_at_end_amended :
    (∀ (model : Nat → ModelOutput) (k : Nat) (st : AgentState),
      (callModel model k st).iterationCount = st.iterationCount + 1) ∧
    (∀ (model : Nat → ModelOutput) (toolExec : ToolCall → String) (k : Nat)
      (st : AgentState) (calls toolRuns : Nat),
      (agentLoop model toolExec k st calls toolRuns).iterationCount = 0) ∧
    (∀ (model : Nat → ModelOutput) (toolExec : ToolCall → String) (st : AgentState),
      routeInput st.messages = some .hardcoded →
      ∃ r, runGraph model toolExec st = some r ∧
        r.iterationCount = st.iterationCount) ∧
    (∀ (model : Nat → ModelOutput) (toolExec : ToolCall → String) (st : AgentState)
      (r : RunResult), st.iterationCount = 0 → runGraph model toolExec st = some r →
      r.iterationCount = 0) := by
  refine ⟨fun model k st => rfl, fun model toolExec k st calls toolRuns =>
    agentLoop_count_zero model toolExec k st calls toolRuns, ?_, ?_⟩
  · intro model toolExec st h
    unfold runGraph
    rw [h]
    exact ⟨_, rfl, rfl⟩
  · intro model toolExec st r h0 hrun
    unfold runGraph at hrun
    cases hroute : routeInput st.messages with
    | none => rw [hroute] at hrun; cases hrun
    | some route =>
      cases route with
      | hardcoded =>
        rw [hroute] at hrun
        simp only [Option.some.injEq] at hrun
        rw [← hrun, ← h0]
      | agent =>
        rw [hroute] at hrun
        simp only [Option.some.injEq] at hrun
        rw [← hrun]
        exact agentLoop_count_zero model toolExec 0 st 0 0

/-- Witness for `counter_zero_at_end_amended`: the canned clause at a
concrete conversation with the counter at zero. -/
theorem counter_zero_at_end_amended_witness :
    (routeInput [Msg.human "hi"] = some .hardcoded) ∧
    ∃ r, runGraph (fun _ => ⟨"", []⟩) (fun _ => "") ⟨[.human "hi"], 0⟩ = some r ∧
      r.iterationCount = (⟨[.human "hi"], 0⟩ : AgentState).iterationCount :=
  ⟨by decide,
    counter_zero_at_end_amended.2.2.1 (fun _ => ⟨"", []⟩) (fun _ => "")
      ⟨[.human "hi"], 0⟩ (by decide)⟩

/-- C4 fails as a statement about the code: the iteration counter is the
single process-wide variable `iterationCount`, not per-session state, so
one session's progress changes another session's termination behavior.
The same session-B invocation makes 20 reasoning calls when the shared
counter starts at 0, but force-terminates after a single reasoning call
when an interleaved session A has already driven the shared counter to
19. -/
theorem global_counter_couples_sessions :
    ∃ r0 r19 : RunResult,
      runGraph (fun _ => ⟨"", [⟨"search_perplexity", "NVDA"⟩]⟩) (fun _ => "result")
        ⟨[.human "Assess NVDA tail risk"], 0⟩ = some r0 ∧
      runGraph (fun _ => ⟨"", [⟨"search_perplexity", "NVDA"⟩]⟩) (fun _ => "result")
        ⟨[.human "Assess NVDA tail risk"], 19⟩ = some r19 ∧
      r0.modelCalls = 20 ∧ r19.modelCalls = 1 ∧ r19.warned = true := by
  have hm : ∀ j : Nat,
      ((fun _ => (⟨"", [⟨"search_perplexity", "NVDA"⟩]⟩ : ModelOutput)) j).toolCalls ≠ [] :=
    fun _ =>
      (by decide : ([(⟨"search_perplexity", "NVDA"⟩ : ToolCall)] : List ToolCall) ≠ [])
  have hr0 : routeInput [.human "Assess NVDA tail risk"] = some .agent := by decide
  obtain ⟨a1, _, _, _⟩ := agentLoop_always_tools
    (fun _ => ⟨"", [⟨"search_perplexity", "NVDA"⟩]⟩) (fun _ => "result") hm 20 0
    ⟨[.human "Assess NVDA tail risk"], 0⟩ 0 0 (by norm_num [MAX_ITERATIONS]) (by norm_num)
  obtain ⟨b1, _, b3, _⟩ := agentLoop_always_tools
    (fun _ => ⟨"", [⟨"search_perplexity", "NVDA"⟩]⟩) (fun _ => "result") hm 1 0
    ⟨[.human "Assess NVDA tail risk"], 19⟩ 0 0 (by norm_num [MAX_ITERATIONS]) (by norm_num)
  refine ⟨agentLoop (fun _ => ⟨"", [⟨"search_perplexity", "NVDA"⟩]⟩) (fun _ => "result")
      0 ⟨[.human "Assess NVDA tail risk"], 0⟩ 0 0,
    agentLoop (fun _ => ⟨"", [⟨"search_perplexity", "NVDA"⟩]⟩) (fun _ => "result")
      0 ⟨[.human "Assess NVDA tail risk"], 19⟩ 0 0,
    by unfold runGraph; rw [hr0], by unfold runGraph; rw [hr0], ?_, ?_, b3⟩
  · simpa using a1
  · simpa using b1

/-- C5: the search tool's execute function is total and error-shaping: a
missing `PERPLEXITY_API_KEY` credential, a non-success HTTP status (with
the status code in the message), and any other failure (network, JSON
parse) are all returned as the error-shaped JSON ToolResult carrying the
error description and the query; every invocation returns either the
error shape or the success shape, never throwing; and in the control
loop a failing invocation still yields a tool-result turn followed by
the observe turn and another reasoning call. -/
theorem search_tool_error_to_result :
    (∀ (outcome : FetchOutcome) (query focus : String),
      searchPerplexityFunc none outcome query focus =
        errorToolResult ("PERPLEXITY_API_KEY environment variable is not set. " ++
          "Please add it to your .env file.") query) ∧
    (∀ (key query focus bodyText : String) (status : Nat)
      (json : Except String PerplexityData),
      searchPerplexityFunc (some key) (.response false status bodyText json) query focus =
        errorToolResult ("Perplexity API error (" ++ toString status ++ "): " ++ bodyText)
          query) ∧
    (∀ (key message query focus : String),
      searchPerplexityFunc (some key) (.fetchRejects message) query focus =
        errorToolResult message query) ∧
    (∀ (apiKey : Option String) (outcome : FetchOutcome) (query focus : String),
      (∃ m, searchPerplexityFunc apiKey outcome query focus = errorToolResult m query) ∨
      (∃ a cs, searchPerplexityFunc apiKey outcome query focus =
        successToolResult query focus a cs)) ∧
    runGraph
      (fun k => if k = 0 then ⟨"", [⟨"search_perplexity", "NVDA tail risks"⟩]⟩
                else ⟨"Analysis based on available data.", []⟩)
      (fun tc => searchPerplexityFunc none (.response true 200 "" (.ok ⟨["ans"], none⟩))
        tc.args "finance")
      ⟨[.human "Assess NVDA tail risk"], 0⟩ =
    some ⟨[.human "Assess NVDA tail risk",
           .ai "" [⟨"search_perplexity", "NVDA tail risks"⟩],
           .ai researchingText [],
           .tool (errorToolResult ("PERPLEXITY_API_KEY environment variable is not set. " ++
             "Please add it to your .env file.") "NVDA tail risks"),
           .ai retrievedText [],
           .ai "Analysis based on available data." []], 0, 2, 1, false⟩ := by
  refine ⟨fun outcome query focus => rfl, fun key query focus bodyText status json => rfl,
    fun key message query focus => rfl, ?_, ?_⟩
  · intro apiKey outcome query focus
    cases hcall : callPerplexityApi apiKey outcome query focus with
    | ok p =>
      right
      exact ⟨p.1, p.2, by simp [searchPerplexityFunc, hcall]⟩
    | error m =>
      left
      exact ⟨m, by simp [searchPerplexityFunc, hcall]⟩
  · have hr : routeInput [.human "Assess NVDA tail risk"] = some .agent := by decide
    rw [runGraph, hr, agentLoop_eq_fuel _ _ 21 _ _ _ _ (by decide)]
    rfl

/-- C6 (spec-modelled tool dispatch): the two-call research scenario.
A non-canned human turn, a backend whose first output requests the
search tool and whose second output is terminal text, yields — in
order — the tool-requesting assistant turn, the announce-status turn,
the tool-result turn, the observe-status turn, and the terminal
assistant turn; exactly 2 reasoning calls are made, one tool executes,
and the counter ends at 0. -/
theorem two_call_research_trace :
    runGraph
      (fun k => if k = 0 then
          ⟨"", [⟨"search_perplexity",
            "\x7b\"query\":\"NVIDIA tail risks\",\"focus\":\"finance\"\x7d"⟩]⟩
        else ⟨"NVIDIA's tail risks include customer concentration and valuation risk.", []⟩)
      (fun _ => "search results on NVIDIA tail risks")
      ⟨[.human "What are NVIDIA's tail risks?"], 0⟩ =
    some ⟨[.human "What are NVIDIA's tail risks?",
           .ai "" [⟨"search_perplexity",
             "\x7b\"query\":\"NVIDIA tail risks\",\"focus\":\"finance\"\x7d"⟩],
           .ai researchingText [],
           .tool "search results on NVIDIA tail risks",
           .ai retrievedText [],
           .ai "NVIDIA's tail risks include customer concentration and valuation risk." []],
          0, 2, 1, false⟩ := by
  have hr : routeInput [.human "What are NVIDIA's tail risks?"] = some .agent := by decide
  rw [runGraph, hr, agentLoop_eq_fuel _ _ 21 _ _ _ _ (by decide)]
  rfl
